import Mathlib

set_option linter.unusedVariables false

/-!
# Verification of the vLLM streaming tool-call extraction core

This file shallowly embeds the tool-call extraction code of the repository
(`vllm/entrypoints/openai/tool_parsers.py`,
`vllm/entrypoints/openai/tool_parsers/mistral_tool_parser.py`,
`vllm/entrypoints/openai/serving_chat.py`) into Lean and proves or refutes
the specification's claims about it.

Python strings are modelled as `List Char` (sequences of Unicode code
points).  External collaborators that are not part of the repository
(`partial_json_parser.loads`, `json.loads`, `re` regexes) are modelled as
oracle function parameters: the embedded functions receive the outcome of
the external call as a function argument whose `none` result models the
call raising an exception.  Everything else — control flow, state
mutation, exception handling, Python string/list primitives — is
translated directly from the source.
-/

/-! ## Characters that the repository's string literals use

Named characters for punctuation, so that source string constants can be
written without ambiguity. -/

/-- The double-quote character `"`. -/
def dqChar : Char := Char.ofNat 34

/-- The single-quote character. -/
def sqChar : Char := Char.ofNat 39

/-! ## Python string/list primitives

These model the exact Python primitives the source uses: `str.replace`
with and without a count, `str.split`, `str.find`/`in`, `str.index`,
list indexing with negative wrap-around, and slice-assignment-style
updates. -/

/-- Python `s.replace(sub, '', 1)`: remove the first occurrence of `sub`
from `s` (identity when `sub` does not occur; also identity when `sub` is
empty, matching Python's `replace('', '', 1)` since the replacement is
empty). -/
def removeFirst : List Char → List Char → List Char
  | [], _ => []
  | c :: rest, sub =>
    if sub.isPrefixOf (c :: rest) then (c :: rest).drop sub.length
    else c :: removeFirst rest sub

/-- Fuel-driven worker for `removeAll`; fuel `s.length` is always enough
because each step consumes at least one character of `s` (and when `sub`
is empty the result is `s` either way, matching Python). -/
def removeAllGo : Nat → List Char → List Char → List Char
  | 0, s, _ => s
  | fuel + 1, s, sub =>
    if sub.isPrefixOf s then removeAllGo fuel (s.drop sub.length) sub
    else
      match s with
      | [] => []
      | c :: rest => c :: removeAllGo fuel rest sub

/-- Python `s.replace(sub, '')`: remove every (left-to-right,
non-overlapping) occurrence of `sub` from `s`. -/
def removeAll (s sub : List Char) : List Char :=
  removeAllGo s.length s sub

/-- Index of the first occurrence of `sub` in `s` (Python `s.find(sub)`
as an `Option`; `s.index(sub)` raises instead of returning `none`). -/
def findSub : List Char → List Char → Option Nat
  | [], sub => if sub.isPrefixOf [] then some 0 else none
  | c :: rest, sub =>
    if sub.isPrefixOf (c :: rest) then some 0
    else (findSub rest sub).map (· + 1)

/-- Python `sub in s` (substring containment). -/
def containsSubstr (s sub : List Char) : Bool :=
  (findSub s sub).isSome

/-- Fuel-driven worker for `pySplit`; the fuel `s.length` is always
sufficient because each recursive call consumes at least one character of
`s` when `sep` is nonempty. -/
def pySplitGo : Nat → List Char → List Char → List (List Char)
  | 0, s, _ => [s]
  | fuel + 1, s, sep =>
    match findSub s sep with
    | none => [s]
    | some i => s.take i :: pySplitGo fuel (s.drop (i + sep.length)) sep

/-- Python `s.split(sep)` for a nonempty separator. -/
def pySplit (s sep : List Char) : List (List Char) :=
  if sep = [] then [s] else pySplitGo s.length s sep

/-- Python list indexing `l[i]` with negative wrap-around; `none` models
an `IndexError`. -/
def pyGet (l : List α) (i : Int) : Option α :=
  let j : Int := if i < 0 then i + l.length else i
  if 0 ≤ j then l.get? j.toNat else none

/-- The list position Python's `l[i]` addresses (meaningful only when
`pyGet l i` succeeds). -/
def pyIdx (len : Nat) (i : Int) : Nat :=
  (if i < 0 then i + (len : Int) else i).toNat

/-- Python `l[i] += sfx` on a list of strings; `none` models an
`IndexError`. -/
def pyListAddAt (l : List (List Char)) (i : Int) (sfx : List Char) :
    Option (List (List Char)) :=
  match pyGet l i with
  | none => none
  | some x => some (l.set (pyIdx l.length i) (x ++ sfx))

/-- Python `l[i] = v`; `none` models an `IndexError`. -/
def pyListSet (l : List α) (i : Int) (v : α) : Option (List α) :=
  match pyGet l i with
  | none => none
  | some _ => some (l.set (pyIdx l.length i) v)

/-- Python `s.replace("'", '"')`: all single quotes become double quotes
(single-character find-and-replace is a pointwise map). -/
def quoteSubst (s : List Char) : List Char :=
  s.map (fun c => if c = sqChar then dqChar else c)

/-! ## Diff utilities (tool_parsers.py lines 19–93) -/

/-- `find_common_prefix(s1, s2)` from tool_parsers.py: walk both strings
from the front, collecting characters while they agree, stopping at the
first mismatch or when either string ends. -/
def findCommonPrefix : List Char → List Char → List Char
  | a :: as, b :: bs => if a = b then a :: findCommonPrefix as bs else []
  | _, _ => []

/-- Worker for `find_common_suffix`, operating on the reversed strings:
collect characters from the front (i.e. the back of the originals) while
they agree and are not alphanumeric. -/
def findCommonSuffixRev : List Char → List Char → List Char
  | a :: as, b :: bs =>
    if a = b ∧ a.isAlphanum = false then a :: findCommonSuffixRev as bs else []
  | _, _ => []

/-- `find_common_suffix(s1, s2)` from tool_parsers.py: scan from the end
while the characters agree, stopping at the first mismatch, exhausted
string, or alphanumeric shared character. -/
def findCommonSuffix (s1 s2 : List Char) : List Char :=
  (findCommonSuffixRev s1.reverse s2.reverse).reverse

/-- `extract_intermediate_diff(curr, old)` from tool_parsers.py:
strip one trailing occurrence of the common suffix from `old`, compute the
common prefix of `curr` with the result, then strip one trailing
occurrence of the suffix and one (first) occurrence of the prefix from
`curr`. -/
def extractIntermediateDiff (curr old : List Char) : List Char :=
  let sfx := findCommonSuffix curr old
  let old2 := (removeFirst old.reverse sfx.reverse).reverse
  let pfx := findCommonPrefix curr old2
  let diff := curr
  let diff := if sfx.length > 0 then (removeFirst diff.reverse sfx.reverse).reverse else diff
  let diff := if pfx.length > 0 then removeFirst diff pfx else diff
  diff

example : findCommonPrefix "hello".toList "help".toList = "hel".toList := by decide
example :
    findCommonSuffix "ap".toList "apple".toList = [] := by decide
example :
    extractIntermediateDiff "ple".toList "p".toList = "le".toList := by decide

/-! ## JSON values and Python's `json.dumps`

`partial_json_parser.loads` / `json.loads` produce arbitrary JSON values
for the `arguments` entry of a tool-call dict, and the source serializes
them back with `json.dumps` (default separators `', '` and `': '`,
`ensure_ascii=True`).  Arrays and objects are mutual inductives so that
the serializer is structurally recursive (hence executable and
kernel-reducible).  Numbers are modelled as integers and characters are
assumed to lie in the Basic Multilingual Plane; neither restriction
matters for any claim below. -/

/-- The backslash character. -/
def bslashChar : Char := Char.ofNat 92

/-- Left curly brace. -/
def lbraceChar : Char := Char.ofNat 123

/-- Right curly brace. -/
def rbraceChar : Char := Char.ofNat 125

/-- Lower-case hexadecimal digit for `n < 16`. -/
def hexDigitChar (n : Nat) : Char :=
  if n < 10 then Char.ofNat (48 + n) else Char.ofNat (87 + n)

/-- Python `json.dumps` escaping of a single character inside a string
literal (`ensure_ascii=True`). -/
def jsonEscapeChar (c : Char) : List Char :=
  if c = dqChar then [bslashChar, dqChar]
  else if c = bslashChar then [bslashChar, bslashChar]
  else if c = Char.ofNat 10 then [bslashChar, 'n']
  else if c = Char.ofNat 9 then [bslashChar, 't']
  else if c = Char.ofNat 13 then [bslashChar, 'r']
  else if c = Char.ofNat 8 then [bslashChar, 'b']
  else if c = Char.ofNat 12 then [bslashChar, 'f']
  else if c.toNat < 32 ∨ 127 ≤ c.toNat then
    [bslashChar, 'u', hexDigitChar (c.toNat / 4096 % 16),
     hexDigitChar (c.toNat / 256 % 16), hexDigitChar (c.toNat / 16 % 16),
     hexDigitChar (c.toNat % 16)]
  else [c]

/-- Escape a whole string for a JSON string literal. -/
def jsonEscape (s : List Char) : List Char :=
  (s.map jsonEscapeChar).flatten

mutual
/-- A JSON value as produced by the (partial) JSON parsers the source
calls. -/
inductive JsonValue where
  | null
  | bool (b : Bool)
  | num (n : Int)
  | str (s : List Char)
  | arr (elems : JsonArray)
  | obj (fields : JsonObject)

/-- A JSON array, as a cons-chain of values. -/
inductive JsonArray where
  | nil
  | cons (hd : JsonValue) (tl : JsonArray)

/-- A JSON object, as a cons-chain of key/value fields (key insertion
order preserved, as Python dicts do). -/
inductive JsonObject where
  | nil
  | cons (key : List Char) (val : JsonValue) (tl : JsonObject)
end

mutual
/-- Python `json.dumps(v)` with default options: separators `', '` and
`': '`, keys in insertion order, no extra whitespace. -/
def JsonValue.dumps : JsonValue → List Char
  | .null => "null".toList
  | .bool true => "true".toList
  | .bool false => "false".toList
  | .num n => (toString n).toList
  | .str s => dqChar :: jsonEscape s ++ [dqChar]
  | .arr elems => '[' :: JsonArray.dumpsItems elems ++ [']']
  | .obj fields => lbraceChar :: JsonObject.dumpsFields fields ++ [rbraceChar]

/-- Comma-joined serializations of array elements. -/
def JsonArray.dumpsItems : JsonArray → List Char
  | .nil => []
  | .cons h .nil => h.dumps
  | .cons h t => h.dumps ++ [',', ' '] ++ JsonArray.dumpsItems t

/-- Comma-joined serializations of object fields. -/
def JsonObject.dumpsFields : JsonObject → List Char
  | .nil => []
  | .cons k v .nil => (dqChar :: jsonEscape k ++ [dqChar]) ++ [':', ' '] ++ v.dumps
  | .cons k v t =>
    (dqChar :: jsonEscape k ++ [dqChar]) ++ [':', ' '] ++ v.dumps
      ++ [',', ' '] ++ JsonObject.dumpsFields t
end

/-- Python truthiness of a JSON value (`bool(v)`): `None`, `False`, `0`,
`""`, `[]` and the empty object are falsy. -/
def JsonValue.truthy : JsonValue → Bool
  | .null => false
  | .bool b => b
  | .num n => decide (n ≠ 0)
  | .str s => decide (s ≠ [])
  | .arr .nil => false
  | .arr (.cons _ _) => true
  | .obj .nil => false
  | .obj (.cons _ _ _) => true

/-- Python truthiness of `d.get('arguments')`: `None` (missing key) is
falsy, otherwise the value's own truthiness. -/
def truthyOpt : Option JsonValue → Bool
  | none => false
  | some v => v.truthy

/-- Python truthiness of `d.get('name')` for a string-valued name. -/
def truthyStr : Option (List Char) → Bool
  | none => false
  | some s => decide (s ≠ [])

/-! ## Protocol data model (vllm/entrypoints/openai/protocol)

The protocol DTO definitions are not part of the sources under
verification; they are plain data containers whose shape is fixed by the
spec's envelope entities (§3, §6). -/

/-- One element of the (partially) parsed tool-call array: an unordered
mapping with recognized keys `name` and `arguments`
(`prev_tool_call_arr` entries).  A missing key models `.get` returning
`None`. -/
structure ToolCallDict where
  name : Option (List Char) := none
  arguments : Option JsonValue := none

/-- `DeltaFunctionCall{name?, arguments?}` (fields elided when absent). -/
structure DeltaFunctionCall where
  name : Option (List Char) := none
  arguments : Option (List Char) := none
deriving DecidableEq

/-- `DeltaToolCall{index, id?, type?, function?}`; `isInitial` records
that the chunk is an `InitialDeltaToolCall` carrying the generated `id`
and `type:"function"` stub. -/
structure DeltaToolCall where
  index : Int
  isInitial : Bool := false
  function : Option DeltaFunctionCall := none
deriving DecidableEq

/-- `DeltaMessage{content?, tool_calls?}`. -/
structure DeltaMessage where
  content : Option (List Char) := none
  tool_calls : List DeltaToolCall := []
deriving DecidableEq

/-- `FunctionCall{name, arguments}` of a complete (non-streaming) tool
call; `arguments` is the JSON-serialized string. -/
structure FunctionCall where
  name : List Char
  arguments : List Char

/-- `ToolCall{type:"function", function}`. -/
structure ToolCall where
  type : List Char := "function".toList
  function : FunctionCall

/-- `ExtractedToolCallInformation{tools_called, tool_calls, content?}`. -/
structure ExtractedToolCallInformation where
  tools_called : Bool
  tool_calls : List ToolCall
  content : Option (List Char)

/-- `DeltaMessage(content=s)`. -/
def contentMsg (s : List Char) : DeltaMessage := { content := some s }

/-- `DeltaMessage(tool_calls=[InitialDeltaToolCall(index=i)])`. -/
def initialToolCallMsg (i : Int) : DeltaMessage :=
  { tool_calls := [{ index := i, isInitial := true }] }

/-- `DeltaMessage(tool_calls=[DeltaToolCall(index=i, function=DeltaFunctionCall(name=nm))])`. -/
def nameToolCallMsg (i : Int) (nm : List Char) : DeltaMessage :=
  { tool_calls := [{ index := i, function := some { name := some nm } }] }

/-- `DeltaMessage(tool_calls=[DeltaToolCall(index=i, function=DeltaFunctionCall(arguments=a))])`. -/
def argsToolCallMsg (i : Int) (a : List Char) : DeltaMessage :=
  { tool_calls := [{ index := i, function := some { arguments := some a } }] }

/-- Mutable per-request parser state shared by both dialects
(`ToolParser.__init__`). -/
structure ParserState where
  prev_tool_call_arr : List ToolCallDict
  current_tool_id : Int
  current_tool_name_sent : Bool
  current_tool_initial_sent : Bool
  streamed_args_for_tool : List (List Char)

/-- The state a freshly constructed parser starts in. -/
def initParserState : ParserState :=
  { prev_tool_call_arr := []
    current_tool_id := -1
    current_tool_name_sent := false
    current_tool_initial_sent := false
    streamed_args_for_tool := [] }

/-! ## Mistral dialect (`MistralToolParser`)

External calls (`re.findall`, `json.loads`, `partial_json_parser.loads`)
are oracle parameters; a `none` result models the call raising, which the
source catches.  Everything else is translated line by line from
`tool_parsers.py` (the copy under `tool_parsers/mistral_tool_parser.py`
is behaviourally identical). -/

/-- The literal `[TOOL_CALLS]` marker. -/
def mistralBotToken : List Char := "[TOOL_CALLS]".toList

/-- `bot_token_id = 5`. -/
def mistralBotTokenId : Nat := 5

/-- The string handed to the regex in `extract_tool_calls`: the model
output with every `[TOOL_CALLS]` removed and single quotes replaced by
double quotes. -/
def mistralTransformed (model_output : List Char) : List Char :=
  quoteSubst (removeAll model_output mistralBotToken)

/-- Build `ToolCall` objects from the loaded array; `none` models the
`KeyError` raised when an element lacks `name` or `arguments` (caught by
the source's handler). -/
def buildToolCallList : List ToolCallDict → Option (List ToolCall)
  | [] => some []
  | d :: rest =>
    match d.name, d.arguments with
    | some nm, some args =>
      (buildToolCallList rest).map
        (fun tcs => { function := { name := nm, arguments := args.dumps } } :: tcs)
    | _, _ => none

/-- `MistralToolParser.extract_tool_calls`.  `regexFindFirst` models
`tool_call_regex.findall(...)[0]` (`none` = no match, `IndexError`);
`jsonLoads` models `json.loads` (`none` = decode error). -/
def mistralExtractToolCalls
    (regexFindFirst : List Char → Option (List Char))
    (jsonLoads : List Char → Option (List ToolCallDict))
    (model_output : List Char) : ExtractedToolCallInformation :=
  if containsSubstr model_output mistralBotToken = false then
    { tools_called := false, tool_calls := [], content := some model_output }
  else
    match regexFindFirst (mistralTransformed model_output) with
    | none => { tools_called := false, tool_calls := [], content := some model_output }
    | some raw =>
      match jsonLoads raw with
      | none => { tools_called := false, tool_calls := [], content := some model_output }
      | some arr =>
        match buildToolCallList arr with
        | none => { tools_called := false, tool_calls := [], content := some model_output }
        | some tcs =>
          let content := (pySplit model_output mistralBotToken).headD []
          { tools_called := true, tool_calls := tcs,
            content := if 0 < content.length then some content else none }

/-- The "starting a new tool in the array" branch of
`MistralToolParser.extract_tool_calls_streaming` (lines 299–330): flush
the un-streamed tail of the previous tool's arguments (computed with a
count-less `str.replace`, i.e. removing **every** occurrence of the
already-streamed string), then advance the cursor, reset the per-tool
flags and append a fresh `""` to `streamed_args_for_tool`. -/
def mistralNewToolBranch (st : ParserState) (tool_call_arr : List ToolCallDict)
    (current_tool_call : ToolCallDict) : ParserState × Option DeltaMessage :=
  let fin : ParserState → Option DeltaMessage → ParserState × Option DeltaMessage :=
    fun st1 delta =>
      ({ st1 with
          current_tool_id := (tool_call_arr.length : Int) - 1
          current_tool_name_sent := false
          current_tool_initial_sent := false
          streamed_args_for_tool := st1.streamed_args_for_tool ++ [[]] }, delta)
  if 0 ≤ st.current_tool_id then
    match current_tool_call.arguments with
    | some args =>
      if args.truthy then
        match pyGet st.streamed_args_for_tool st.current_tool_id with
        | none => (st, none)
        | some streamed =>
          let diff := removeAll args.dumps streamed
          fin
            { st with
                streamed_args_for_tool := st.streamed_args_for_tool.set
                  (pyIdx st.streamed_args_for_tool.length st.current_tool_id)
                  (streamed ++ diff) }
            (some (argsToolCallMsg st.current_tool_id diff))
      else fin st none
    | none => fin st none
  else fin st none

/-- The "update an existing tool" suite of
`MistralToolParser.extract_tool_calls_streaming` (lines 344–435): send
the initial stub, then the name, then argument deltas; finish by storing
`tool_call_arr` into `prev_tool_call_arr`.  `(st, none)` on a failed
lookup models the exception reaching the handler with the state
unchanged. -/
def mistralUpdateBranch (st : ParserState) (tool_call_arr : List ToolCallDict)
    (current_tool_call : ToolCallDict) (delta_text : List Char) :
    ParserState × Option DeltaMessage :=
  if st.current_tool_initial_sent = false then
    ({ st with current_tool_initial_sent := true, prev_tool_call_arr := tool_call_arr },
     some (initialToolCallMsg st.current_tool_id))
  else if st.current_tool_name_sent = false then
    if truthyStr current_tool_call.name then
      ({ st with current_tool_name_sent := true, prev_tool_call_arr := tool_call_arr },
       some (nameToolCallMsg st.current_tool_id (current_tool_call.name.getD [])))
    else ({ st with prev_tool_call_arr := tool_call_arr }, none)
  else
    match pyGet st.prev_tool_call_arr st.current_tool_id with
    | none => (st, none)
    | some prevDict =>
      let prev_arguments := prevDict.arguments
      let cur_arguments := current_tool_call.arguments
      let new_text := quoteSubst delta_text
      if truthyOpt cur_arguments = false then
        -- covers `not cur and not prev` (nothing yet) and the logged
        -- `not cur and prev` invariant violation: both yield delta = None
        ({ st with prev_tool_call_arr := tool_call_arr }, none)
      else if truthyOpt prev_arguments = false then
        -- first arguments chunk: emit the serialization prefix through the
        -- first occurrence of the (quote-substituted) delta text
        let cur_args_json := (cur_arguments.getD .null).dumps
        match findSub cur_args_json new_text with
        | none => (st, none)
        | some idx =>
          let arguments_delta := cur_args_json.take (idx + new_text.length)
          match pyGet st.streamed_args_for_tool st.current_tool_id with
          | none => (st, none)
          | some streamed =>
            ({ st with
                streamed_args_for_tool := st.streamed_args_for_tool.set
                  (pyIdx st.streamed_args_for_tool.length st.current_tool_id)
                  (streamed ++ arguments_delta)
                prev_tool_call_arr := tool_call_arr },
             some (argsToolCallMsg st.current_tool_id arguments_delta))
      else
        -- both present: intermediate diff of the two serializations
        let cur_args_json := (cur_arguments.getD .null).dumps
        let prev_args_json := (prev_arguments.getD .null).dumps
        let argument_diff := extractIntermediateDiff cur_args_json prev_args_json
        match pyGet st.streamed_args_for_tool st.current_tool_id with
        | none => (st, none)
        | some streamed =>
          ({ st with
              streamed_args_for_tool := st.streamed_args_for_tool.set
                (pyIdx st.streamed_args_for_tool.length st.current_tool_id)
                (streamed ++ argument_diff)
              prev_tool_call_arr := tool_call_arr },
           some (argsToolCallMsg st.current_tool_id argument_diff))

/-- `MistralToolParser.extract_tool_calls_streaming`.  `parse` is the
`partial_json_parser.loads` oracle: it receives the quote-substituted
tool-call region and the flag choice (`Allow.ALL` when
`current_tool_name_sent` else `ALL & ~STR`); `none` models a parse
exception.  Every `(st, none)` fallback is the source's
except-handler returning `None` with whatever state had been written. -/
def mistralStreamStep (st : ParserState)
    (parse : List Char → Bool → Option (List ToolCallDict))
    (previous_text current_text delta_text : List Char)
    (previous_token_ids current_token_ids delta_token_ids : List Nat) :
    ParserState × Option DeltaMessage :=
  if current_token_ids.contains mistralBotTokenId = false then
    (st, some (contentMsg delta_text))
  else if delta_token_ids.contains mistralBotTokenId ∧ delta_token_ids.length = 1 then
    (st, none)
  else
    match (pySplit current_text mistralBotToken).get? 1 with
    | none => (st, none)
    | some portion =>
      match parse (quoteSubst portion) st.current_tool_name_sent with
      | none => (st, none)
      | some tool_call_arr =>
        match pyGet tool_call_arr st.current_tool_id with
        | none => (st, none)
        | some current_tool_call =>
          if 0 < tool_call_arr.length ∧ st.current_tool_id + 1 < (tool_call_arr.length : Int) then
            mistralNewToolBranch st tool_call_arr current_tool_call
          else if (tool_call_arr.length : Int) - 1 = st.current_tool_id ∧ 0 ≤ st.current_tool_id then
            mistralUpdateBranch st tool_call_arr current_tool_call delta_text
          else (st, none)

/-! ## Hermes 2 Pro dialect (`Hermes2ProToolParser`) -/

/-- The literal `<tool_call>` start tag. -/
def hermesStartToken : List Char := "<tool_call>".toList

/-- The literal `</tool_call>` end tag. -/
def hermesEndToken : List Char := "</tool_call>".toList

/-- Outcome of `Hermes2ProToolParser.__init__`: each error constructor is
one of the exceptions the constructor can raise. -/
inductive HermesInitResult where
  | ok (start_id end_id : Nat)
  | errNoTokenizer
  | errKeyMissing
  | errTokenNotFound
deriving DecidableEq

/-- `Hermes2ProToolParser.__init__` (lines 516–527): fail without a
tokenizer (`ValueError`); look the two tag strings up in the vocabulary
(`KeyError` when absent); then reject **falsy** ids — `not id` — with a
`RuntimeError`, which fires for id 0 even though the tag is present. -/
def hermesInit (tokenizer : Option (List Char → Option Nat)) : HermesInitResult :=
  match tokenizer with
  | none => .errNoTokenizer
  | some vocab =>
    match vocab hermesStartToken with
    | none => .errKeyMissing
    | some s =>
      match vocab hermesEndToken with
      | none => .errKeyMissing
      | some e => if s = 0 ∨ e = 0 then .errTokenNotFound else .ok s e

/-- The "current tool call is being closed" branch (lines 592–608): look
up the previous arguments, remove every occurrence of the
already-streamed string from their serialization, and **return the diff
without touching any state** — in particular without appending the diff
to `streamed_args_for_tool`.  When the arguments are falsy the source
falls through to a use of the unbound `tool_call_portion`
(`NameError`), caught by the handler. -/
def hermesClosingBranch (st : ParserState) : ParserState × Option DeltaMessage :=
  match pyGet st.prev_tool_call_arr st.current_tool_id with
  | none => (st, none)
  | some d =>
    match d.arguments with
    | some args =>
      if args.truthy then
        match pyGet st.streamed_args_for_tool st.current_tool_id with
        | none => (st, none)
        | some streamed =>
          (st, some (argsToolCallMsg st.current_tool_id (removeAll args.dumps streamed)))
      else (st, none)
    | none => (st, none)

/-- End-of-step save of `Hermes2ProToolParser` (lines 742–748): write the
current tool call into `prev_tool_call_arr` in place, or append it. -/
def hermesSaveState (st : ParserState) (c : ToolCallDict) (delta : Option DeltaMessage) :
    ParserState × Option DeltaMessage :=
  if st.current_tool_id = (st.prev_tool_call_arr.length : Int) - 1 then
    match pyListSet st.prev_tool_call_arr st.current_tool_id c with
    | none => (st, none)
    | some l => ({ st with prev_tool_call_arr := l }, delta)
  else
    ({ st with prev_tool_call_arr := st.prev_tool_call_arr ++ [c] }, delta)

/-- The initial / name / arguments emission of
`Hermes2ProToolParser.extract_tool_calls_streaming` (lines 623–752),
entered after the branch classification with the (possibly already
mutated) state.  `ctc` pairs the parsed `current_tool_call` with the
fact that `tool_call_portion` was non-`None`; `text_portion` is `None`
on every path of the source, so the content-delta fallback never
fires. -/
def hermesCommon (st : ParserState) (ctc : Option ToolCallDict) (delta_text : List Char) :
    ParserState × Option DeltaMessage :=
  if st.current_tool_initial_sent = false then
    ({ st with current_tool_initial_sent := true },
     some (initialToolCallMsg st.current_tool_id))
  else if st.current_tool_name_sent = false then
    match ctc with
    | none => (st, none)
    | some c =>
      if truthyStr c.name then
        ({ st with current_tool_name_sent := true },
         some (nameToolCallMsg st.current_tool_id (c.name.getD [])))
      else (st, none)
  else
    match ctc with
    | none => (st, none)
    | some c =>
      let st1 := if (st.prev_tool_call_arr.length : Int) ≤ st.current_tool_id then
          { st with prev_tool_call_arr := st.prev_tool_call_arr ++ [{}] } else st
      match pyGet st1.prev_tool_call_arr st1.current_tool_id with
      | none => (st1, none)
      | some prevDict =>
        let prev_arguments := prevDict.arguments
        let cur_arguments := c.arguments
        if truthyOpt cur_arguments = false then
          hermesSaveState st1 c none
        else if truthyOpt prev_arguments = false then
          -- first arguments chunk; the needle is the raw delta text
          let cur_args_json := (cur_arguments.getD .null).dumps
          match findSub cur_args_json delta_text with
          | none => (st1, none)
          | some idx =>
            let arguments_delta := cur_args_json.take (idx + delta_text.length)
            match pyGet st1.streamed_args_for_tool st1.current_tool_id with
            | none => (st1, none)
            | some streamed =>
              hermesSaveState
                { st1 with
                    streamed_args_for_tool := st1.streamed_args_for_tool.set
                      (pyIdx st1.streamed_args_for_tool.length st1.current_tool_id)
                      (streamed ++ arguments_delta) }
                c (some (argsToolCallMsg st1.current_tool_id arguments_delta))
        else
          let cur_args_json := (cur_arguments.getD .null).dumps
          let prev_args_json := (prev_arguments.getD .null).dumps
          let argument_diff := extractIntermediateDiff cur_args_json prev_args_json
          match pyGet st1.streamed_args_for_tool st1.current_tool_id with
          | none => (st1, none)
          | some streamed =>
            hermesSaveState
              { st1 with
                  streamed_args_for_tool := st1.streamed_args_for_tool.set
                    (pyIdx st1.streamed_args_for_tool.length st1.current_tool_id)
                    (streamed ++ argument_diff) }
              c (some (argsToolCallMsg st1.current_tool_id argument_diff))

/-- `Hermes2ProToolParser.extract_tool_calls_streaming` (lines 529–760).
`parse` is the `partial_json_parser.loads` oracle for a single tool-call
object.  The `flags` bitmask is computed from `current_tool_name_sent`
**before** the new-tool branch resets that flag, exactly as in the
source.  A parse failure in the new-tool branch reaches the except
handler with the cursor/flag mutations already applied. -/
def hermesStreamStep (start_id end_id : Nat) (st : ParserState)
    (parse : List Char → Bool → Option ToolCallDict)
    (previous_text current_text delta_text : List Char)
    (previous_token_ids current_token_ids delta_token_ids : List Nat) :
    ParserState × Option DeltaMessage :=
  if current_token_ids.contains start_id = false then
    (st, some (contentMsg delta_text))
  else
    let ps := previous_token_ids.count start_id
    let pe := previous_token_ids.count end_id
    let cs := current_token_ids.count start_id
    let ce := current_token_ids.count end_id
    if cs = ce ∧ pe = ce then (st, some (contentMsg delta_text))
    else
      let flag := st.current_tool_name_sent
      if ce < cs ∧ ps < cs then
        let portion : Option (List Char) :=
          if 1 < delta_token_ids.length then
            some ((pySplit current_text hermesStartToken).getLastD [])
          else none
        let st1 := { st with
          current_tool_id := st.current_tool_id + 1
          current_tool_name_sent := false
          current_tool_initial_sent := false
          streamed_args_for_tool := st.streamed_args_for_tool ++ [[]] }
        match portion with
        | some p =>
          match parse p flag with
          | none => (st1, none)
          | some c => hermesCommon st1 (some c) delta_text
        | none => hermesCommon st1 none delta_text
      else if ce < cs ∧ cs = ps then
        let p := (pySplit current_text hermesStartToken).getLastD []
        match parse p flag with
        | none => (st, none)
        | some c => hermesCommon st (some c) delta_text
      else if cs = ce ∧ pe < ce then
        hermesClosingBranch st
      else (st, none)

/-! ## Chunk shaping and request validation (`serving_chat.py`) -/

/-- `request.tool_choice` as the validation code sees it: absent, a JSON
string, or a named-function object. -/
inductive ToolChoice where
  | unspecified
  | choice (s : List Char)
  | named (function_name : List Char)
deriving DecidableEq

/-- The tool-choice validation of `create_chat_completion`
(serving_chat.py lines 161–169), returning the error message of the
error response it produces, or `none` when the request passes both
checks.  Note the source's first condition is `!=`. -/
def toolChoiceValidationError (tool_choice : ToolChoice)
    (enable_auto_tools toolParserConfigured : Bool) : Option (List Char) :=
  if tool_choice ≠ ToolChoice.choice ("required".toList) then
    some ("tool_choice = \"required\" is not supported!".toList)
  else if tool_choice = ToolChoice.choice ("auto".toList)
      ∧ (enable_auto_tools && toolParserConfigured) = false then
    some ("auto tool choice requires --enable-auto-tool-choice and a tool parser".toList)
  else none

/-- `len(tool_parser.prev_tool_call_arr)` with `tool_parser and ...`
short-circuiting: 0 when no tool parser is in use. -/
def toolParserArrLen : Option ParserState → Nat
  | none => 0
  | some p => p.prev_tool_call_arr.length

/-- The finish reason stamped on a terminal stream chunk
(serving_chat.py lines 475–478): the engine's reason, unless a tool
parser is in use and its `prev_tool_call_arr` is non-empty
(`not (tool_parser and len(tool_parser.prev_tool_call_arr))`). -/
def terminalFinishReason (tool_state : Option ParserState)
    (engine_finish_reason : List Char) : List Char :=
  if (tool_state.isSome && decide (0 < toolParserArrLen tool_state)) = false then
    engine_finish_reason
  else "tool_calls".toList

/-- `ChatCompletionResponseStreamChoice` as built for the terminal chunk
(serving_chat.py lines 471–479). -/
structure StreamChoice where
  index : Nat
  delta : DeltaMessage
  finish_reason : Option (List Char)
  stop_reason : Option (List Char)
deriving DecidableEq

/-- Build the terminal `ChatCompletionResponseStreamChoice` for a choice
whose engine output carries a finish reason. -/
def terminalStreamChoice (i : Nat) (delta : DeltaMessage)
    (tool_state : Option ParserState) (engine_finish_reason : List Char)
    (stop_reason : Option (List Char)) : StreamChoice :=
  { index := i
    delta := delta
    finish_reason := some (terminalFinishReason tool_state engine_finish_reason)
    stop_reason := stop_reason }

/-! ## Claim C1 — the `tool_choice = "required"` validation -/

/-- **C1.** The claim states that a request with `tool_choice="required"`
is rejected with an error response and that other values pass this
check.  The source (serving_chat.py lines 161–164) inverts its own
documented condition (`if request.tool_choice != 'required'`): every
request whose `tool_choice` is *not* `"required"` — here `"auto"` and an
absent tool choice — receives the error response `'tool_choice =
"required" is not supported!'`, while `tool_choice="required"` passes
both validation checks. -/
theorem claim_C1_tool_choice_check_inverted :
    toolChoiceValidationError (ToolChoice.choice ("auto".toList)) true true
      = some ("tool_choice = \"required\" is not supported!".toList)
    ∧ toolChoiceValidationError ToolChoice.unspecified true true
      = some ("tool_choice = \"required\" is not supported!".toList)
    ∧ toolChoiceValidationError (ToolChoice.choice ("required".toList)) true true
      = none := by
  refine ⟨?_, ?_, ?_⟩ <;> decide

/-! ## Claim C2 — terminal-chunk finish-reason override -/

/-- **C2 (counterexample).** The claim's "if and only if" fails: with no
tool parser in use and the engine itself reporting `"tool_calls"`, the
terminal chunk's finish reason equals `"tool_calls"` even though no tool
parser is in use. -/
theorem claim_C2_finish_reason_iff_counterexample :
    ¬ (((terminalStreamChoice 0 {} none ("tool_calls".toList) none).finish_reason
          = some ("tool_calls".toList))
        ↔ ((none : Option ParserState).isSome = true
            ∧ 0 < toolParserArrLen (none : Option ParserState))) := by
  decide

/-- **C2 (amended).** When the engine reports a finish reason, the
terminal chunk's finish reason is `"tool_calls"` *if* a tool parser is in
use with a non-empty `prev_tool_call_arr`, and otherwise is the engine's
reported reason unchanged (which may itself be `"tool_calls"`, so the
condition is sufficient but not necessary). -/
theorem claim_C2_finish_reason_override (i : Nat) (delta : DeltaMessage)
    (tool_state : Option ParserState) (engine_finish_reason : List Char)
    (stop_reason : Option (List Char)) :
    (terminalStreamChoice i delta tool_state engine_finish_reason stop_reason).finish_reason
      = some (if tool_state.isSome = true ∧ 0 < toolParserArrLen tool_state
              then "tool_calls".toList else engine_finish_reason) := by
  unfold terminalStreamChoice terminalFinishReason
  rcases tool_state with _ | p
  · simp [toolParserArrLen]
  · by_cases h : 0 < p.prev_tool_call_arr.length
    · simp [toolParserArrLen, h]
    · simp [toolParserArrLen, h]

/-! ## Claim C10 — Hermes constructor token checks -/

/-- **C10.** The Hermes constructor raises when no tokenizer is supplied,
and — because the missing-token check tests truthiness of the looked-up
id rather than membership — it also raises (`RuntimeError`) for every
tokenizer whose vocabulary maps either tag string to token id 0, even
though both tags are present. -/
theorem claim_C10_hermes_init_truthiness (vocab : List Char → Option Nat)
    (s e : Nat) (hs : vocab hermesStartToken = some s)
    (he : vocab hermesEndToken = some e) (h0 : s = 0 ∨ e = 0) :
    hermesInit (some vocab) = HermesInitResult.errTokenNotFound
      ∧ hermesInit none = HermesInitResult.errNoTokenizer := by
  constructor
  · unfold hermesInit
    simp only [hs, he]
    exact if_pos h0
  · rfl

/-- Witness for C10: a vocabulary containing both tags, with
`<tool_call>` mapped to id 0, is rejected; so is a missing tokenizer. -/
theorem claim_C10_hermes_init_truthiness_witness :
    hermesInit (some (fun t => if t = hermesStartToken then some 0 else some 7))
      = HermesInitResult.errTokenNotFound
    ∧ hermesInit none = HermesInitResult.errNoTokenizer :=
  claim_C10_hermes_init_truthiness
    (fun t => if t = hermesStartToken then some 0 else some 7) 0 7
    (by decide) (by decide) (Or.inl rfl)

/-! ## Claim C4 — Mistral complete extraction never raises -/

/-- **C4.** `MistralToolParser.extract_tool_calls` is total (the
embedding is a total function: the source wraps the whole
marker-present path in `try/except`), and: without the `[TOOL_CALLS]`
marker the result is `tools_called=false`, an empty `tool_calls` list,
and `content` equal to the unmodified model output; with the marker, a
failure of the regex match or of the JSON load (on the string obtained
by deleting the markers and substituting quotes) yields the same
fallback instead of propagating. -/
theorem claim_C4_mistral_extract_fallback
    (regexFindFirst : List Char → Option (List Char))
    (jsonLoads : List Char → Option (List ToolCallDict))
    (model_output : List Char) :
    (containsSubstr model_output mistralBotToken = false →
      mistralExtractToolCalls regexFindFirst jsonLoads model_output
        = { tools_called := false, tool_calls := [], content := some model_output })
    ∧ (containsSubstr model_output mistralBotToken = true →
        (regexFindFirst (mistralTransformed model_output) = none
          ∨ ∃ raw, regexFindFirst (mistralTransformed model_output) = some raw
              ∧ jsonLoads raw = none) →
        mistralExtractToolCalls regexFindFirst jsonLoads model_output
          = { tools_called := false, tool_calls := [], content := some model_output }) := by
  constructor
  · intro h
    unfold mistralExtractToolCalls
    simp [h]
  · intro h hfail
    unfold mistralExtractToolCalls
    rcases hfail with h1 | ⟨raw, h1, h2⟩
    · simp [h, h1]
    · simp [h, h1, h2]

/-- Witness for C4: both fallbacks at concrete inputs (no marker; marker
present with failing regex oracle). -/
theorem claim_C4_mistral_extract_fallback_witness :
    mistralExtractToolCalls (fun _ => none) (fun _ => none) ("hello".toList)
      = { tools_called := false, tool_calls := [], content := some ("hello".toList) }
    ∧ mistralExtractToolCalls (fun _ => none) (fun _ => none) ("[TOOL_CALLS]x".toList)
      = { tools_called := false, tool_calls := [],
          content := some ("[TOOL_CALLS]x".toList) } :=
  ⟨(claim_C4_mistral_extract_fallback (fun _ => none) (fun _ => none) ("hello".toList)).1
      (by decide),
   (claim_C4_mistral_extract_fallback (fun _ => none) (fun _ => none)
      ("[TOOL_CALLS]x".toList)).2 (by decide) (Or.inl rfl)⟩

/-! ## Claim C8 — Mistral streaming pass-through and marker swallow -/

/-- **C8.** For every step fed to the Mistral streaming parser: if the
bot token id (5) is not among `current_token_ids` the step returns a
`DeltaMessage` whose content is exactly `delta_text` (no tool-call
fields) with the state untouched; and if the bot token id is among
`delta_token_ids` with `delta_token_ids` of length exactly one (the
delta being, per the stream driver's contract, a suffix of the current
ids), the step returns `None`. -/
theorem claim_C8_mistral_passthrough_and_swallow (st : ParserState)
    (parse : List Char → Bool → Option (List ToolCallDict))
    (previous_text current_text delta_text : List Char)
    (previous_token_ids current_token_ids delta_token_ids : List Nat) :
    (current_token_ids.contains mistralBotTokenId = false →
      mistralStreamStep st parse previous_text current_text delta_text
          previous_token_ids current_token_ids delta_token_ids
        = (st, some (contentMsg delta_text)))
    ∧ (delta_token_ids.contains mistralBotTokenId = true →
        delta_token_ids.length = 1 →
        delta_token_ids <:+ current_token_ids →
        mistralStreamStep st parse previous_text current_text delta_text
            previous_token_ids current_token_ids delta_token_ids
          = (st, none)) := by
  constructor
  · intro h
    unfold mistralStreamStep
    rw [h]
    simp
  · intro hmem hlen hsuffix
    have hmem' : mistralBotTokenId ∈ delta_token_ids := by
      simpa using hmem
    have hcur : current_token_ids.contains mistralBotTokenId = true := by
      have : mistralBotTokenId ∈ current_token_ids := hsuffix.subset hmem'
      simpa using this
    unfold mistralStreamStep
    rw [hcur]
    simp [hmem', hlen]

/-- Witness for C8 at concrete steps: ids without the marker pass the
delta text through; a lone marker token is swallowed. -/
theorem claim_C8_mistral_passthrough_and_swallow_witness :
    mistralStreamStep initParserState (fun _ _ => none) [] ("Hi".toList) ("Hi".toList)
        [] [1, 2] [2]
      = (initParserState, some (contentMsg ("Hi".toList)))
    ∧ mistralStreamStep initParserState (fun _ _ => none) [] ("[TOOL_CALLS]".toList)
        ("[TOOL_CALLS]".toList) [] [1, 5] [5]
      = (initParserState, none) :=
  ⟨(claim_C8_mistral_passthrough_and_swallow initParserState (fun _ _ => none) [] ("Hi".toList)
      ("Hi".toList) [] [1, 2] [2]).1 (by decide),
   (claim_C8_mistral_passthrough_and_swallow initParserState (fun _ _ => none) []
      ("[TOOL_CALLS]".toList) ("[TOOL_CALLS]".toList) [] [1, 5] [5]).2 (by decide) (by decide)
      ⟨[1], rfl⟩⟩

/-! ## Helpers for reasoning about steps and runs -/

/-- Inputs of one streaming step, as handed over by the stream driver. -/
structure StepData where
  previous_text : List Char
  current_text : List Char
  delta_text : List Char
  previous_token_ids : List Nat
  current_token_ids : List Nat
  delta_token_ids : List Nat

/-- Fold a list of steps through the Hermes parser from a given state,
collecting the emitted messages in order. -/
def hermesRun (start_id end_id : Nat) (parse : List Char → Bool → Option ToolCallDict) :
    ParserState → List StepData → ParserState × List (Option DeltaMessage)
  | st, [] => (st, [])
  | st, d :: rest =>
    let r := hermesStreamStep start_id end_id st parse d.previous_text d.current_text
      d.delta_text d.previous_token_ids d.current_token_ids d.delta_token_ids
    let rest' := hermesRun start_id end_id parse r.1 rest
    (rest'.1, r.2 :: rest'.2)

/-- The `(index, arguments)` pair of a step's emitted message, when the
message consists of a single tool-call delta carrying arguments. -/
def deltaArgsOf (m : Option DeltaMessage) : Option (Int × List Char) :=
  match m with
  | none => none
  | some msg =>
    match msg.tool_calls with
    | [tc] =>
      match tc.function with
      | some f => f.arguments.map (fun a => (tc.index, a))
      | none => none
    | _ => none

/-- Concatenation, in emission order, of every `function.arguments` delta
emitted for tool index `i` in a list of step outputs. -/
def argsConcatFor (i : Int) (outs : List (Option DeltaMessage)) : List Char :=
  outs.foldl (fun acc o =>
    match deltaArgsOf o with
    | some (j, d) => if j = i then acc ++ d else acc
    | none => acc) []

/-- `pyGet` at a non-negative index is plain list lookup. -/
theorem pyGet_nonneg (l : List α) (i : Int) (hi : 0 ≤ i) :
    pyGet l i = l.get? i.toNat := by
  unfold pyGet
  simp [Int.not_lt.mpr hi, hi]

/-- `pyIdx` at a non-negative index is `toNat`. -/
theorem pyIdx_nonneg (len : Nat) (i : Int) (hi : 0 ≤ i) :
    pyIdx len i = i.toNat := by
  unfold pyIdx
  simp [Int.not_lt.mpr hi]

/-! ## Claim C9 — `len(streamed_args_for_tool) = current_tool_id + 1` -/

/-- The parse oracle of the C9 counterexample: a single step in which the
partial parse yields two tool calls at once. -/
def c9CexParse : List Char → Bool → Option (List ToolCallDict) :=
  fun _ _ => some [{ name := some ("a".toList) }, { name := some ("b".toList) }]

/-- The C9 counterexample step: from the freshly initialized Mistral
parser, one step whose partial parse advances the array length by two. -/
def c9CexStep : ParserState × Option DeltaMessage :=
  mistralStreamStep initParserState c9CexParse
    [] ("[TOOL_CALLS]x".toList) ("x".toList) [] [5, 7] [5, 7]

/-- **C9 (counterexample).**  A single Mistral step that advances the
parsed tool-call array length by more than one (here from 0 to 2)
breaks the claimed invariant: afterwards `current_tool_id = 1 ≥ 0` but
`streamed_args_for_tool` has length 1, not `current_tool_id + 1 = 2` —
the new-tool branch appends exactly one `""` regardless of how far the
cursor jumps. -/
theorem claim_C9_invariant_counterexample :
    0 ≤ c9CexStep.1.current_tool_id
    ∧ (c9CexStep.1.streamed_args_for_tool.length : Int)
        ≠ c9CexStep.1.current_tool_id + 1 := by
  decide

/-! ## Claim C5 — new-tool diff uses count-less replace -/

/-- The state of the C5 counterexample: one tool in progress whose
already-streamed arguments string `ab` occurs twice in the serialization
of its final arguments `"abab"`. -/
def c5CexState : ParserState :=
  { prev_tool_call_arr :=
      [{ name := some ("f".toList), arguments := some (.str ("abab".toList)) }]
    current_tool_id := 0
    current_tool_name_sent := true
    current_tool_initial_sent := true
    streamed_args_for_tool := ["ab".toList] }

/-- The parse oracle of the C5 counterexample: the array now holds a
second tool, so the step takes the new-tool-start branch. -/
def c5CexParse : List Char → Bool → Option (List ToolCallDict) :=
  fun _ _ => some
    [{ name := some ("f".toList), arguments := some (.str ("abab".toList)) },
     { name := some ("g".toList) }]

/-- The C5 counterexample step. -/
def c5CexStep : ParserState × Option DeltaMessage :=
  mistralStreamStep c5CexState c5CexParse [] ("[TOOL_CALLS]x".toList) ("x".toList)
    [] [5, 9] [9]

/-- **C5 (counterexample).**  The claim says the un-streamed tail is
computed by deleting exactly *one* occurrence of the streamed string, so
that later occurrences survive.  In the code the `replace` has no count:
with streamed `ab` and serialized arguments `"abab"` the emitted diff is
`""` (both quote characters only) — every occurrence was removed — and
not `"ab"`, the single-occurrence deletion the claim prescribes. -/
theorem claim_C5_replace_once_counterexample :
    c5CexStep.2 = some (argsToolCallMsg 0 [dqChar, dqChar])
    ∧ removeFirst (JsonValue.dumps (.str ("abab".toList))) ("ab".toList)
        = [dqChar, 'a', 'b', dqChar]
    ∧ ([dqChar, dqChar] : List Char) ≠ [dqChar, 'a', 'b', dqChar] := by
  decide

/-! ## Claim C3 — streamed args equal the emitted-delta concatenation -/

/-- The parse oracle of the C3 counterexample run (the Hermes parser is
fed the text after the `<tool_call>` tag). -/
def c3CexParse : List Char → Bool → Option ToolCallDict :=
  fun p _ =>
    if p = "X".toList then some { name := some ("f".toList) }
    else if p = "Xa".toList then
      some { name := some ("f".toList), arguments := some (.str ("a".toList)) }
    else none

/-- The C3 counterexample run: open a tool call, stream its name and its
arguments, then close it (start tag id 10, end tag id 11). -/
def c3CexSteps : List StepData :=
  [ { previous_text := [], current_text := "<tool_call>".toList,
      delta_text := "<tool_call>".toList,
      previous_token_ids := [], current_token_ids := [10], delta_token_ids := [10] },
    { previous_text := "<tool_call>".toList, current_text := "<tool_call>X".toList,
      delta_text := "X".toList,
      previous_token_ids := [10], current_token_ids := [10, 1], delta_token_ids := [1] },
    { previous_text := "<tool_call>X".toList, current_text := "<tool_call>Xa".toList,
      delta_text := "a".toList,
      previous_token_ids := [10, 1], current_token_ids := [10, 1, 2],
      delta_token_ids := [2] },
    { previous_text := "<tool_call>Xa".toList,
      current_text := "<tool_call>Xa</tool_call>".toList,
      delta_text := "</tool_call>".toList,
      previous_token_ids := [10, 1, 2], current_token_ids := [10, 1, 2, 11],
      delta_token_ids := [11] } ]

/-- The C3 counterexample run, folded from the initial state. -/
def c3CexRun : ParserState × List (Option DeltaMessage) :=
  hermesRun 10 11 c3CexParse initParserState c3CexSteps

/-- **C3 (counterexample).**  In the Hermes tool-closing branch the final
step of this reachable run emits the non-empty arguments delta `"` for
tool 0 but returns without appending it to `streamed_args_for_tool`:
afterwards `streamed_args_for_tool[0] = '"a'` while the concatenation of
all emitted argument deltas for tool 0 is `'"a"'` — the claimed
invariant fails at this step boundary, and the emitted delta was not
appended before the step returned. -/
theorem claim_C3_streamed_args_counterexample :
    deltaArgsOf (c3CexRun.2.getD 3 none) = some (0, [dqChar])
    ∧ ([dqChar] : List Char) ≠ []
    ∧ c3CexRun.1.streamed_args_for_tool.get? 0 = some [dqChar, 'a']
    ∧ argsConcatFor 0 c3CexRun.2 = [dqChar, 'a', dqChar]
    ∧ c3CexRun.1.streamed_args_for_tool.get? 0
        ≠ some (argsConcatFor 0 c3CexRun.2) := by
  decide

/-! ## Claim C7 — soundness of the common-prefix/suffix helpers -/

/-- The computed common prefix is a prefix of the first argument. -/
theorem findCommonPrefix_prefix_left : ∀ a b : List Char, findCommonPrefix a b <+: a := by
  intro a
  induction a with
  | nil => intro b; simp [findCommonPrefix]
  | cons x as ih =>
    intro b
    cases b with
    | nil => simp [findCommonPrefix]
    | cons y bs =>
      unfold findCommonPrefix
      by_cases h : x = y
      · rw [if_pos h]
        exact List.cons_prefix_cons.mpr ⟨rfl, ih bs⟩
      · rw [if_neg h]
        exact List.nil_prefix

/-- The computed common prefix is a prefix of the second argument. -/
theorem findCommonPrefix_prefix_right : ∀ a b : List Char, findCommonPrefix a b <+: b := by
  intro a
  induction a with
  | nil => intro b; simp [findCommonPrefix]
  | cons x as ih =>
    intro b
    cases b with
    | nil => simp [findCommonPrefix]
    | cons y bs =>
      unfold findCommonPrefix
      by_cases h : x = y
      · rw [if_pos h]
        exact List.cons_prefix_cons.mpr ⟨h, ih bs⟩
      · rw [if_neg h]
        exact List.nil_prefix

/-- No common prefix of both arguments is longer than the computed one. -/
theorem findCommonPrefix_longest : ∀ p a b : List Char, p <+: a → p <+: b →
    p.length ≤ (findCommonPrefix a b).length := by
  intro p
  induction p with
  | nil => intro a b _ _; simp
  | cons x xs ih =>
    intro a b ha hb
    cases a with
    | nil => exact absurd ha (by simp)
    | cons a' as =>
      cases b with
      | nil => exact absurd hb (by simp)
      | cons b' bs =>
        obtain ⟨rfl, ha'⟩ := List.cons_prefix_cons.mp ha
        obtain ⟨hb1, hb'⟩ := List.cons_prefix_cons.mp hb
        unfold findCommonPrefix
        rw [if_pos hb1]
        simpa using ih as bs ha' hb'

/-- The reversed-suffix worker yields a prefix of its first argument. -/
theorem findCommonSuffixRev_prefix_left :
    ∀ a b : List Char, findCommonSuffixRev a b <+: a := by
  intro a
  induction a with
  | nil => intro b; simp [findCommonSuffixRev]
  | cons x as ih =>
    intro b
    cases b with
    | nil => simp [findCommonSuffixRev]
    | cons y bs =>
      unfold findCommonSuffixRev
      by_cases h : x = y ∧ x.isAlphanum = false
      · rw [if_pos h]
        exact List.cons_prefix_cons.mpr ⟨rfl, ih bs⟩
      · rw [if_neg h]
        exact List.nil_prefix

/-- The reversed-suffix worker yields a prefix of its second argument. -/
theorem findCommonSuffixRev_prefix_right :
    ∀ a b : List Char, findCommonSuffixRev a b <+: b := by
  intro a
  induction a with
  | nil => intro b; simp [findCommonSuffixRev]
  | cons x as ih =>
    intro b
    cases b with
    | nil => simp [findCommonSuffixRev]
    | cons y bs =>
      unfold findCommonSuffixRev
      by_cases h : x = y ∧ x.isAlphanum = false
      · rw [if_pos h]
        exact List.cons_prefix_cons.mpr ⟨h.1, ih bs⟩
      · rw [if_neg h]
        exact List.nil_prefix

/-- Every character collected by the reversed-suffix worker is
non-alphanumeric. -/
theorem findCommonSuffixRev_not_alnum :
    ∀ a b : List Char, ∀ c ∈ findCommonSuffixRev a b, c.isAlphanum = false := by
  intro a
  induction a with
  | nil => intro b c hc; simp [findCommonSuffixRev] at hc
  | cons x as ih =>
    intro b c hc
    cases b with
    | nil => simp [findCommonSuffixRev] at hc
    | cons y bs =>
      unfold findCommonSuffixRev at hc
      by_cases h : x = y ∧ x.isAlphanum = false
      · rw [if_pos h] at hc
        rcases List.mem_cons.mp hc with rfl | hc'
        · exact h.2
        · exact ih bs c hc'
      · rw [if_neg h] at hc
        simp at hc

/-- The reversed-suffix worker stops exactly at the first position where
the characters differ, a string runs out, or the shared character is
alphanumeric. -/
theorem findCommonSuffixRev_stop :
    ∀ a b : List Char,
      (findCommonSuffixRev a b).length < min a.length b.length →
      ∀ ca cb, a.get? (findCommonSuffixRev a b).length = some ca →
        b.get? (findCommonSuffixRev a b).length = some cb →
        ca ≠ cb ∨ ca.isAlphanum = true := by
  intro a
  induction a with
  | nil => intro b hlt; simp at hlt
  | cons x as ih =>
    intro b hlt ca cb hca hcb
    cases b with
    | nil => simp at hlt
    | cons y bs =>
      unfold findCommonSuffixRev at hlt hca hcb
      by_cases h : x = y ∧ x.isAlphanum = false
      · rw [if_pos h] at hlt hca hcb
        have hlt' : (findCommonSuffixRev as bs).length < min as.length bs.length := by
          simp only [List.length_cons] at hlt
          omega
        have hca' : as.get? (findCommonSuffixRev as bs).length = some ca := by
          simpa using hca
        have hcb' : bs.get? (findCommonSuffixRev as bs).length = some cb := by
          simpa using hcb
        exact ih bs hlt' ca cb hca' hcb'
      · rw [if_neg h] at hca hcb
        simp only [List.length_nil, List.get?_cons_zero, Option.some.injEq] at hca hcb
        subst hca
        subst hcb
        rcases Decidable.not_and_iff_or_not.mp h with h1 | h2
        · exact Or.inl h1
        · exact Or.inr (by simpa using h2)

/-- The computed common suffix is a suffix of the first argument. -/
theorem findCommonSuffix_suffix_left (a b : List Char) : findCommonSuffix a b <:+ a := by
  unfold findCommonSuffix
  rw [← List.reverse_prefix]
  simpa using findCommonSuffixRev_prefix_left a.reverse b.reverse

/-- The computed common suffix is a suffix of the second argument. -/
theorem findCommonSuffix_suffix_right (a b : List Char) : findCommonSuffix a b <:+ b := by
  unfold findCommonSuffix
  rw [← List.reverse_prefix]
  simpa using findCommonSuffixRev_prefix_right a.reverse b.reverse

/-- **C7.** `find_common_prefix(a, b)` is a prefix of both arguments and
no strictly longer string is a prefix of both; `find_common_suffix(a, b)`
is a suffix of both, contains no alphanumeric character, and is maximal
under the stopping rule: if it is shorter than both arguments then at the
next position from the end the two characters differ or the shared
character is alphanumeric. -/
theorem claim_C7_prefix_suffix_soundness (a b : List Char) :
    (findCommonPrefix a b <+: a ∧ findCommonPrefix a b <+: b
      ∧ ∀ p : List Char, p <+: a → p <+: b → p.length ≤ (findCommonPrefix a b).length)
    ∧ (findCommonSuffix a b <:+ a ∧ findCommonSuffix a b <:+ b
      ∧ (∀ c ∈ findCommonSuffix a b, c.isAlphanum = false)
      ∧ ((findCommonSuffix a b).length < min a.length b.length →
          ∀ ca cb, a.reverse.get? (findCommonSuffix a b).length = some ca →
            b.reverse.get? (findCommonSuffix a b).length = some cb →
            ca ≠ cb ∨ ca.isAlphanum = true)) := by
  refine ⟨⟨findCommonPrefix_prefix_left a b, findCommonPrefix_prefix_right a b,
      fun p hpa hpb => findCommonPrefix_longest p a b hpa hpb⟩,
    findCommonSuffix_suffix_left a b, findCommonSuffix_suffix_right a b, ?_, ?_⟩
  · intro c hc
    have hc' : c ∈ findCommonSuffixRev a.reverse b.reverse := by
      have := List.mem_reverse.mpr hc
      simpa [findCommonSuffix] using hc
    exact findCommonSuffixRev_not_alnum a.reverse b.reverse c hc'
  · intro hlt ca cb hca hcb
    have hlen : (findCommonSuffix a b).length = (findCommonSuffixRev a.reverse b.reverse).length := by
      simp [findCommonSuffix]
    have hlt' : (findCommonSuffixRev a.reverse b.reverse).length
        < min a.reverse.length b.reverse.length := by
      simpa [hlen] using hlt
    exact findCommonSuffixRev_stop a.reverse b.reverse hlt' ca cb
      (by simpa [hlen] using hca) (by simpa [hlen] using hcb)

/-- Witness for C7 at concrete strings, including the nested maximality
hypotheses discharged at a concrete common prefix. -/
theorem claim_C7_prefix_suffix_soundness_witness :
    findCommonPrefix ("ab!".toList) ("ab?".toList) <+: "ab!".toList
    ∧ ("ab".toList).length ≤ (findCommonPrefix ("ab!".toList) ("ab?".toList)).length
    ∧ findCommonSuffix ("x!?".toList) ("y!?".toList) <:+ "x!?".toList
    ∧ (('c' : Char) ≠ 'd' ∨ ('c' : Char).isAlphanum = true) :=
  ⟨(claim_C7_prefix_suffix_soundness ("ab!".toList) ("ab?".toList)).1.1,
   (claim_C7_prefix_suffix_soundness ("ab!".toList) ("ab?".toList)).1.2.2
      ("ab".toList) (by decide) (by decide),
   (claim_C7_prefix_suffix_soundness ("x!?".toList) ("y!?".toList)).2.1,
   (claim_C7_prefix_suffix_soundness ("c!".toList) ("d!".toList)).2.2.2.2
      (by decide) 'c' 'd' (by decide) (by decide)⟩

/-! ## Claim C6 — the intermediate diff reconstructs `curr` -/

/-- `replace(sub, '', 1)` on a string that starts with `sub` drops
exactly that occurrence. -/
theorem removeFirst_of_prefix (s sub : List Char) (h : sub.isPrefixOf s) :
    removeFirst s sub = s.drop sub.length := by
  cases s with
  | nil =>
    have hsub : sub = [] := by
      have := List.isPrefixOf_iff_prefix.mp h
      simpa using this
    subst hsub
    simp [removeFirst]
  | cons c rest =>
    unfold removeFirst
    rw [if_pos h]

/-- **C6 (counterexample).**  For `curr = "!"` and `old = "!!"` the
common suffix is `"!"`, the stripped `old` is `"!"`, and the common
prefix `p = "!"` overlaps the suffix inside `curr`; the reconstruction
`p ++ diff ++ s` yields `"!!"`, not `curr`. -/
theorem claim_C6_diff_reconstructs_counterexample :
    findCommonPrefix ("!".toList)
        ((removeFirst ("!!".toList).reverse
          (findCommonSuffix ("!".toList) ("!!".toList)).reverse).reverse)
      ++ extractIntermediateDiff ("!".toList) ("!!".toList)
      ++ findCommonSuffix ("!".toList) ("!!".toList) ≠ "!".toList := by
  decide

/-- **C6 (amended).**  The reconstruction
`p ++ extract_intermediate_diff(curr, old) ++ s = curr` holds whenever
the consumed prefix and suffix do not overlap inside `curr`, i.e. when
`|p| + |s| ≤ |curr|`; the counterexample above shows the unrestricted
claim fails when `p` reaches into the trailing occurrence of `s`. -/
theorem claim_C6_diff_reconstructs (curr old : List Char)
    (h : (findCommonPrefix curr
            ((removeFirst old.reverse (findCommonSuffix curr old).reverse).reverse)).length
          + (findCommonSuffix curr old).length ≤ curr.length) :
    findCommonPrefix curr
        ((removeFirst old.reverse (findCommonSuffix curr old).reverse).reverse)
      ++ extractIntermediateDiff curr old ++ findCommonSuffix curr old = curr := by
  obtain ⟨t, ht⟩ := findCommonSuffix_suffix_left curr old
  set sfx := findCommonSuffix curr old with hsfx
  set old2 := (removeFirst old.reverse sfx.reverse).reverse with hold2
  set pfx := findCommonPrefix curr old2 with hpfx
  have hstrip : (if sfx.length > 0 then (removeFirst curr.reverse sfx.reverse).reverse
      else curr) = t := by
    by_cases hs : sfx.length > 0
    · rw [if_pos hs, ← ht, List.reverse_append,
        removeFirst_of_prefix _ _ (List.isPrefixOf_iff_prefix.mpr (List.prefix_append _ _)),
        List.drop_left, List.reverse_reverse]
    · have hnil : sfx = [] := List.length_eq_zero.mp (by omega)
      rw [if_neg hs, ← ht, hnil, List.append_nil]
  have hEID : extractIntermediateDiff curr old =
      (if pfx.length > 0 then
        removeFirst (if sfx.length > 0 then (removeFirst curr.reverse sfx.reverse).reverse
          else curr) pfx
      else (if sfx.length > 0 then (removeFirst curr.reverse sfx.reverse).reverse
          else curr)) := rfl
  rw [hstrip] at hEID
  have hlen : t.length + sfx.length = curr.length := by
    rw [← ht]
    simp
  have hpt : pfx <+: t := by
    refine List.prefix_of_prefix_length_le (findCommonPrefix_prefix_left curr old2)
      ⟨sfx, ht⟩ ?_
    omega
  have hfinal : pfx ++ (if pfx.length > 0 then removeFirst t pfx else t) = t := by
    by_cases hp : pfx.length > 0
    · rw [if_pos hp, removeFirst_of_prefix _ _ (List.isPrefixOf_iff_prefix.mpr hpt)]
      obtain ⟨u, hu⟩ := hpt
      rw [← hu, List.drop_left]
    · have hnil : pfx = [] := List.length_eq_zero.mp (by omega)
      rw [if_neg hp, hnil, List.nil_append]
  rw [hEID, hfinal, ht]

/-- Witness for the amended C6 at `curr = "[1, 2]"`, `old = "[1]"`:
prefix `[1`, suffix `]`, diff `, 2`. -/
theorem claim_C6_diff_reconstructs_witness :
    findCommonPrefix ("[1, 2]".toList)
        ((removeFirst ("[1]".toList).reverse
          (findCommonSuffix ("[1, 2]".toList) ("[1]".toList)).reverse).reverse)
      ++ extractIntermediateDiff ("[1, 2]".toList) ("[1]".toList)
      ++ findCommonSuffix ("[1, 2]".toList) ("[1]".toList) = "[1, 2]".toList :=
  claim_C6_diff_reconstructs ("[1, 2]".toList) ("[1]".toList) (by decide)

/-- **C5 (amended).**  In the Mistral new-tool-start branch (parsed array
longer than `current_tool_id + 1` with `current_tool_id ≥ 0`), the
un-streamed tail of the previous tool's arguments is computed by
deleting **every** occurrence of
`streamed_args_for_tool[current_tool_id]` from the JSON serialization of
that tool's arguments — the source's `replace` carries no count — so
when the already-streamed string occurs more than once in the
serialization, all its occurrences are removed from the emitted diff
(not just the first); the diff is emitted at the previous tool's index
and appended to its `streamed_args_for_tool` entry. -/
theorem claim_C5_new_tool_diff_removes_all (st : ParserState)
    (parse : List Char → Bool → Option (List ToolCallDict))
    (previous_text current_text delta_text : List Char)
    (previous_token_ids current_token_ids delta_token_ids : List Nat)
    (portion : List Char) (arr : List ToolCallDict) (c : ToolCallDict) (v : JsonValue)
    (srd : List Char)
    (hcontains : current_token_ids.contains mistralBotTokenId = true)
    (hnotsolo : ¬ (delta_token_ids.contains mistralBotTokenId = true
        ∧ delta_token_ids.length = 1))
    (hportion : (pySplit current_text mistralBotToken).get? 1 = some portion)
    (hparse : parse (quoteSubst portion) st.current_tool_name_sent = some arr)
    (hget : pyGet arr st.current_tool_id = some c)
    (hlen : st.current_tool_id + 1 < (arr.length : Int))
    (hid : 0 ≤ st.current_tool_id)
    (hargs : c.arguments = some v)
    (htruthy : v.truthy = true)
    (hsrd : pyGet st.streamed_args_for_tool st.current_tool_id = some srd) :
    (mistralStreamStep st parse previous_text current_text delta_text
        previous_token_ids current_token_ids delta_token_ids).2
      = some (argsToolCallMsg st.current_tool_id (removeAll v.dumps srd))
    ∧ (mistralStreamStep st parse previous_text current_text delta_text
        previous_token_ids current_token_ids delta_token_ids).1.streamed_args_for_tool.get?
          st.current_tool_id.toNat
      = some (srd ++ removeAll v.dumps srd) := by
  have hpos : 0 < arr.length := by
    have h0 : (0 : Int) < arr.length := by omega
    exact_mod_cast h0
  have hstep : mistralStreamStep st parse previous_text current_text delta_text
      previous_token_ids current_token_ids delta_token_ids
      = mistralNewToolBranch st arr c := by
    unfold mistralStreamStep
    rw [hcontains, if_neg (by simp), if_neg hnotsolo, hportion]
    simp only [hparse, hget]
    rw [if_pos ⟨hpos, hlen⟩]
  have hlt : st.current_tool_id.toNat < st.streamed_args_for_tool.length := by
    rw [pyGet_nonneg _ _ hid] at hsrd
    exact (List.get?_eq_some.mp hsrd).1
  have hbranch : mistralNewToolBranch st arr c
      = ({ st with
            current_tool_id := (arr.length : Int) - 1
            current_tool_name_sent := false
            current_tool_initial_sent := false
            streamed_args_for_tool :=
              (st.streamed_args_for_tool.set st.current_tool_id.toNat
                (srd ++ removeAll v.dumps srd)) ++ [[]] },
          some (argsToolCallMsg st.current_tool_id (removeAll v.dumps srd))) := by
    unfold mistralNewToolBranch
    rw [if_pos hid, hargs]
    simp only [htruthy, hsrd]
    rw [if_pos (by trivial), pyIdx_nonneg _ _ hid]
  rw [hstep, hbranch]
  refine ⟨rfl, ?_⟩
  have hlt' : st.current_tool_id.toNat
      < (st.streamed_args_for_tool.set st.current_tool_id.toNat
          (srd ++ removeAll v.dumps srd)).length := by
    simpa using hlt
  simp only [List.get?_eq_getElem?]
  rw [List.getElem?_append_left hlt', List.getElem?_set_self hlt]

/-- Witness for the amended C5, at the counterexample's concrete state:
streamed `ab`, serialized previous arguments `"abab"`, emitted diff
`""` (every occurrence deleted) appended to the streamed entry. -/
theorem claim_C5_new_tool_diff_removes_all_witness :
    c5CexStep.2 = some (argsToolCallMsg 0 (removeAll (JsonValue.dumps
        (.str ("abab".toList))) ("ab".toList)))
    ∧ c5CexStep.1.streamed_args_for_tool.get? 0
        = some ("ab".toList ++ removeAll (JsonValue.dumps
            (.str ("abab".toList))) ("ab".toList)) := by
  have h := claim_C5_new_tool_diff_removes_all c5CexState c5CexParse
    [] ("[TOOL_CALLS]x".toList) ("x".toList) [] [5, 9] [9]
    ("x".toList)
    [{ name := some ("f".toList), arguments := some (.str ("abab".toList)) },
     { name := some ("g".toList) }]
    { name := some ("f".toList), arguments := some (.str ("abab".toList)) }
    (.str ("abab".toList)) ("ab".toList)
    (by decide) (by decide) (by decide) rfl rfl (by decide) (by decide)
    rfl (by decide) (by decide)
  exact h

/-- `deltaArgsOf` of an arguments delta. -/
theorem deltaArgsOf_argsToolCallMsg (i : Int) (a : List Char) :
    deltaArgsOf (some (argsToolCallMsg i a)) = some (i, a) := rfl

/-- `deltaArgsOf` of a content delta. -/
theorem deltaArgsOf_contentMsg (s : List Char) :
    deltaArgsOf (some (contentMsg s)) = none := rfl

/-- `deltaArgsOf` of an initial tool-call stub. -/
theorem deltaArgsOf_initialToolCallMsg (i : Int) :
    deltaArgsOf (some (initialToolCallMsg i)) = none := rfl

/-- `deltaArgsOf` of a name delta. -/
theorem deltaArgsOf_nameToolCallMsg (i : Int) (nm : List Char) :
    deltaArgsOf (some (nameToolCallMsg i nm)) = none := rfl

/-- In the Mistral new-tool branch, any emitted arguments delta is
appended to the streamed-arguments entry of its tool. -/
theorem mistralNewToolBranch_args_appended (st st' : ParserState)
    (arr : List ToolCallDict) (c : ToolCallDict) (out : Option DeltaMessage)
    (i : Int) (d : List Char)
    (hstep : mistralNewToolBranch st arr c = (st', out))
    (hargs : deltaArgsOf out = some (i, d)) :
    0 ≤ i ∧ ∃ old, st.streamed_args_for_tool.get? i.toNat = some old
      ∧ st'.streamed_args_for_tool.get? i.toNat = some (old ++ d) := by
  unfold mistralNewToolBranch at hstep
  simp only [] at hstep
  split at hstep
  · -- 0 ≤ current_tool_id
    rename_i hid
    split at hstep
    · -- c.arguments = some args
      rename_i args heq
      split at hstep
      · -- args.truthy
        rename_i htruthy
        split at hstep
        · -- pyGet streamed = none
          rw [Prod.mk.injEq] at hstep
          obtain ⟨rfl, rfl⟩ := hstep
          simp [deltaArgsOf] at hargs
        · -- pyGet streamed = some streamed
          rename_i streamed heq2
          rw [Prod.mk.injEq] at hstep
          obtain ⟨rfl, rfl⟩ := hstep
          rw [deltaArgsOf_argsToolCallMsg, Option.some.injEq, Prod.mk.injEq] at hargs
          obtain ⟨rfl, rfl⟩ := hargs
          have hsome : st.streamed_args_for_tool.get? st.current_tool_id.toNat
              = some streamed := by
            rw [← pyGet_nonneg _ _ hid]
            exact heq2
          have hlt : st.current_tool_id.toNat < st.streamed_args_for_tool.length :=
            (List.get?_eq_some.mp hsome).1
          refine ⟨hid, streamed, hsome, ?_⟩
          rw [pyIdx_nonneg _ _ hid]
          simp only [List.get?_eq_getElem?]
          rw [List.getElem?_append_left (by simpa using hlt),
            List.getElem?_set_self hlt]
      · -- args falsy
        rw [Prod.mk.injEq] at hstep
        obtain ⟨rfl, rfl⟩ := hstep
        simp [deltaArgsOf] at hargs
    · -- c.arguments = none
      rw [Prod.mk.injEq] at hstep
      obtain ⟨rfl, rfl⟩ := hstep
      simp [deltaArgsOf] at hargs
  · -- current_tool_id < 0
    rw [Prod.mk.injEq] at hstep
    obtain ⟨rfl, rfl⟩ := hstep
    simp [deltaArgsOf] at hargs

/-- In the Mistral update branch (entered only with
`current_tool_id ≥ 0`), any emitted arguments delta is appended to the
streamed-arguments entry of its tool. -/
theorem mistralUpdateBranch_args_appended (st st' : ParserState)
    (arr : List ToolCallDict) (c : ToolCallDict) (delta_text : List Char)
    (out : Option DeltaMessage) (i : Int) (d : List Char)
    (hid : 0 ≤ st.current_tool_id)
    (hstep : mistralUpdateBranch st arr c delta_text = (st', out))
    (hargs : deltaArgsOf out = some (i, d)) :
    0 ≤ i ∧ ∃ old, st.streamed_args_for_tool.get? i.toNat = some old
      ∧ st'.streamed_args_for_tool.get? i.toNat = some (old ++ d) := by
  unfold mistralUpdateBranch at hstep
  simp only [] at hstep
  split at hstep
  · -- initial not sent
    rw [Prod.mk.injEq] at hstep
    obtain ⟨rfl, rfl⟩ := hstep
    simp [deltaArgsOf, initialToolCallMsg] at hargs
  · split at hstep
    · -- name not sent
      split at hstep
      · -- name truthy
        rw [Prod.mk.injEq] at hstep
        obtain ⟨rfl, rfl⟩ := hstep
        simp [deltaArgsOf, nameToolCallMsg] at hargs
      · rw [Prod.mk.injEq] at hstep
        obtain ⟨rfl, rfl⟩ := hstep
        simp [deltaArgsOf] at hargs
    · -- arguments area
      split at hstep
      · -- pyGet prev = none
        rw [Prod.mk.injEq] at hstep
        obtain ⟨rfl, rfl⟩ := hstep
        simp [deltaArgsOf] at hargs
      · rename_i prevDict heqPrev
        split at hstep
        · -- cur falsy
          rw [Prod.mk.injEq] at hstep
          obtain ⟨rfl, rfl⟩ := hstep
          simp [deltaArgsOf] at hargs
        · split at hstep
          · -- cur truthy, prev falsy
            split at hstep
            · -- findSub = none
              rw [Prod.mk.injEq] at hstep
              obtain ⟨rfl, rfl⟩ := hstep
              simp [deltaArgsOf] at hargs
            · rename_i idx heqIdx
              split at hstep
              · -- pyGet streamed = none
                rw [Prod.mk.injEq] at hstep
                obtain ⟨rfl, rfl⟩ := hstep
                simp [deltaArgsOf] at hargs
              · rename_i streamed heqStr
                rw [Prod.mk.injEq] at hstep
                obtain ⟨rfl, rfl⟩ := hstep
                rw [deltaArgsOf_argsToolCallMsg, Option.some.injEq, Prod.mk.injEq] at hargs
                obtain ⟨rfl, rfl⟩ := hargs
                have hsome : st.streamed_args_for_tool.get? st.current_tool_id.toNat
                    = some streamed := by
                  rw [← pyGet_nonneg _ _ hid]
                  exact heqStr
                have hlt : st.current_tool_id.toNat < st.streamed_args_for_tool.length :=
                  (List.get?_eq_some.mp hsome).1
                refine ⟨hid, streamed, hsome, ?_⟩
                rw [pyIdx_nonneg _ _ hid]
                simp only [List.get?_eq_getElem?]
                rw [List.getElem?_set_self hlt]
          · -- cur truthy, prev truthy
            split at hstep
            · -- pyGet streamed = none
              rw [Prod.mk.injEq] at hstep
              obtain ⟨rfl, rfl⟩ := hstep
              simp [deltaArgsOf] at hargs
            · rename_i streamed heqStr
              rw [Prod.mk.injEq] at hstep
              obtain ⟨rfl, rfl⟩ := hstep
              rw [deltaArgsOf_argsToolCallMsg, Option.some.injEq, Prod.mk.injEq] at hargs
              obtain ⟨rfl, rfl⟩ := hargs
              have hsome : st.streamed_args_for_tool.get? st.current_tool_id.toNat
                  = some streamed := by
                rw [← pyGet_nonneg _ _ hid]
                exact heqStr
              have hlt : st.current_tool_id.toNat < st.streamed_args_for_tool.length :=
                (List.get?_eq_some.mp hsome).1
              refine ⟨hid, streamed, hsome, ?_⟩
              rw [pyIdx_nonneg _ _ hid]
              simp only [List.get?_eq_getElem?]
              rw [List.getElem?_set_self hlt]

/-- **C3 (amended).**  For the **Mistral** streaming parser, every
arguments delta `(i, d)` a step emits is appended to
`streamed_args_for_tool[i]` before the step returns — so each entry
remains the concatenation, in emission order, of the deltas emitted for
its tool.  (For the Hermes parser this fails: its tool-closing branch
emits the remaining tail without appending it; see the C3
counterexample.) -/
theorem claim_C3_mistral_args_appended (st st' : ParserState)
    (parse : List Char → Bool → Option (List ToolCallDict))
    (previous_text current_text delta_text : List Char)
    (previous_token_ids current_token_ids delta_token_ids : List Nat)
    (out : Option DeltaMessage) (i : Int) (d : List Char)
    (hstep : mistralStreamStep st parse previous_text current_text delta_text
        previous_token_ids current_token_ids delta_token_ids = (st', out))
    (hargs : deltaArgsOf out = some (i, d)) :
    0 ≤ i ∧ ∃ old, st.streamed_args_for_tool.get? i.toNat = some old
      ∧ st'.streamed_args_for_tool.get? i.toNat = some (old ++ d) := by
  unfold mistralStreamStep at hstep
  split at hstep
  · rw [Prod.mk.injEq] at hstep
    obtain ⟨rfl, rfl⟩ := hstep
    simp [deltaArgsOf, contentMsg] at hargs
  · split at hstep
    · rw [Prod.mk.injEq] at hstep
      obtain ⟨rfl, rfl⟩ := hstep
      simp [deltaArgsOf] at hargs
    · split at hstep
      · rw [Prod.mk.injEq] at hstep
        obtain ⟨rfl, rfl⟩ := hstep
        simp [deltaArgsOf] at hargs
      · split at hstep
        · rw [Prod.mk.injEq] at hstep
          obtain ⟨rfl, rfl⟩ := hstep
          simp [deltaArgsOf] at hargs
        · split at hstep
          · rw [Prod.mk.injEq] at hstep
            obtain ⟨rfl, rfl⟩ := hstep
            simp [deltaArgsOf] at hargs
          · split at hstep
            · exact mistralNewToolBranch_args_appended _ _ _ _ _ _ _ hstep hargs
            · split at hstep
              · rename_i hcond
                exact mistralUpdateBranch_args_appended _ _ _ _ _ _ _ _
                  hcond.2 hstep hargs
              · rw [Prod.mk.injEq] at hstep
                obtain ⟨rfl, rfl⟩ := hstep
                simp [deltaArgsOf] at hargs

/-- Witness for the amended C3, applying it to the concrete C5 step
(which emits the diff `""` for tool 0 and appends it). -/
theorem claim_C3_mistral_args_appended_witness :
    0 ≤ (0 : Int) ∧ ∃ old, c5CexState.streamed_args_for_tool.get? (0 : Int).toNat = some old
      ∧ c5CexStep.1.streamed_args_for_tool.get? (0 : Int).toNat
        = some (old ++ [dqChar, dqChar]) :=
  claim_C3_mistral_args_appended c5CexState c5CexStep.1 c5CexParse
    [] ("[TOOL_CALLS]x".toList) ("x".toList) [] [5, 9] [9] c5CexStep.2 0
    [dqChar, dqChar] rfl (by decide)

/-- The Mistral update branch never changes the cursor or the length of
`streamed_args_for_tool`. -/
theorem mistralUpdateBranch_preserves (st : ParserState) (arr : List ToolCallDict)
    (c : ToolCallDict) (delta_text : List Char) :
    (mistralUpdateBranch st arr c delta_text).1.current_tool_id = st.current_tool_id
    ∧ (mistralUpdateBranch st arr c delta_text).1.streamed_args_for_tool.length
      = st.streamed_args_for_tool.length := by
  unfold mistralUpdateBranch
  simp only []
  split
  · exact ⟨rfl, rfl⟩
  · split
    · split
      · exact ⟨rfl, rfl⟩
      · exact ⟨rfl, rfl⟩
    · split
      · exact ⟨rfl, rfl⟩
      · split
        · exact ⟨rfl, rfl⟩
        · split
          · split
            · exact ⟨rfl, rfl⟩
            · split
              · exact ⟨rfl, rfl⟩
              · exact ⟨rfl, by simp⟩
          · split
            · exact ⟨rfl, rfl⟩
            · exact ⟨rfl, by simp⟩

/-- The Mistral new-tool branch sets the cursor to the end of the parsed
array and appends exactly one `""` to `streamed_args_for_tool`. -/
theorem mistralNewToolBranch_shape (st : ParserState) (arr : List ToolCallDict)
    (c : ToolCallDict) :
    (mistralNewToolBranch st arr c).1 = st
    ∨ ((mistralNewToolBranch st arr c).1.current_tool_id = (arr.length : Int) - 1
      ∧ (mistralNewToolBranch st arr c).1.streamed_args_for_tool.length
        = st.streamed_args_for_tool.length + 1) := by
  unfold mistralNewToolBranch
  simp only []
  split
  · split
    · split
      · split
        · exact Or.inl rfl
        · exact Or.inr ⟨rfl, by simp⟩
      · exact Or.inr ⟨rfl, by simp⟩
    · exact Or.inr ⟨rfl, by simp⟩
  · exact Or.inr ⟨rfl, by simp⟩

/-- `hermesSaveState` only touches `prev_tool_call_arr`. -/
theorem hermesSaveState_preserves (st : ParserState) (c : ToolCallDict)
    (delta : Option DeltaMessage) :
    (hermesSaveState st c delta).1.current_tool_id = st.current_tool_id
    ∧ (hermesSaveState st c delta).1.streamed_args_for_tool.length
      = st.streamed_args_for_tool.length := by
  unfold hermesSaveState
  split
  · split
    · exact ⟨rfl, rfl⟩
    · exact ⟨rfl, rfl⟩
  · exact ⟨rfl, rfl⟩

/-- `hermesCommon` never changes the cursor or the length of
`streamed_args_for_tool`. -/
theorem hermesCommon_preserves (st : ParserState) (ctc : Option ToolCallDict)
    (delta_text : List Char) :
    (hermesCommon st ctc delta_text).1.current_tool_id = st.current_tool_id
    ∧ (hermesCommon st ctc delta_text).1.streamed_args_for_tool.length
      = st.streamed_args_for_tool.length := by
  unfold hermesCommon
  simp only []
  split
  · exact ⟨rfl, rfl⟩
  · split
    · split
      · exact ⟨rfl, rfl⟩
      · split
        · exact ⟨rfl, rfl⟩
        · exact ⟨rfl, rfl⟩
    · split
      · exact ⟨rfl, rfl⟩
      · rename_i c
        set st1 := (if (st.prev_tool_call_arr.length : Int) ≤ st.current_tool_id then
            { st with prev_tool_call_arr := st.prev_tool_call_arr ++ [{}] }
          else st) with hst1
        have hid1 : st1.current_tool_id = st.current_tool_id := by
          rw [hst1]; split <;> rfl
        have hstr1 : st1.streamed_args_for_tool = st.streamed_args_for_tool := by
          rw [hst1]; split <;> rfl
        split
        · exact ⟨hid1, by rw [hstr1]⟩
        · split
          · exact ⟨(hermesSaveState_preserves _ _ _).1.trans hid1,
              (hermesSaveState_preserves _ _ _).2.trans (by rw [hstr1])⟩
          · split
            · split
              · exact ⟨hid1, by rw [hstr1]⟩
              · split
                · exact ⟨hid1, by rw [hstr1]⟩
                · exact ⟨(hermesSaveState_preserves _ _ _).1.trans hid1,
                    (hermesSaveState_preserves _ _ _).2.trans (by simp [hstr1])⟩
            · split
              · exact ⟨hid1, by rw [hstr1]⟩
              · exact ⟨(hermesSaveState_preserves _ _ _).1.trans hid1,
                  (hermesSaveState_preserves _ _ _).2.trans (by simp [hstr1])⟩

/-- The Hermes closing branch never mutates the state. -/
theorem hermesClosingBranch_state (st : ParserState) :
    (hermesClosingBranch st).1 = st := by
  unfold hermesClosingBranch
  split
  · rfl
  · split
    · split
      · split
        · rfl
        · rfl
      · rfl
    · rfl

/-- One Hermes step preserves
`len(streamed_args_for_tool) = current_tool_id + 1` (together with
`current_tool_id ≥ -1`), unconditionally. -/
theorem hermesStreamStep_inv (start_id end_id : Nat) (st : ParserState)
    (parse : List Char → Bool → Option ToolCallDict)
    (previous_text current_text delta_text : List Char)
    (previous_token_ids current_token_ids delta_token_ids : List Nat)
    (hge : -1 ≤ st.current_tool_id)
    (hlen : (st.streamed_args_for_tool.length : Int) = st.current_tool_id + 1) :
    -1 ≤ (hermesStreamStep start_id end_id st parse previous_text current_text delta_text
        previous_token_ids current_token_ids delta_token_ids).1.current_tool_id
    ∧ ((hermesStreamStep start_id end_id st parse previous_text current_text delta_text
        previous_token_ids current_token_ids delta_token_ids).1.streamed_args_for_tool.length
          : Int)
      = (hermesStreamStep start_id end_id st parse previous_text current_text delta_text
        previous_token_ids current_token_ids delta_token_ids).1.current_tool_id + 1 := by
  unfold hermesStreamStep
  simp only []
  split
  · exact ⟨hge, hlen⟩
  · split
    · exact ⟨hge, hlen⟩
    · set st1 : ParserState := { st with
        current_tool_id := st.current_tool_id + 1
        current_tool_name_sent := false
        current_tool_initial_sent := false
        streamed_args_for_tool := st.streamed_args_for_tool ++ [[]] } with hst1
      have hge1 : -1 ≤ st1.current_tool_id := by
        rw [hst1]; simp; omega
      have hlen1 : (st1.streamed_args_for_tool.length : Int) = st1.current_tool_id + 1 := by
        rw [hst1]; simp; omega
      split
      · split
        · split
          · exact ⟨hge1, hlen1⟩
          · rename_i c heqc
            have h := hermesCommon_preserves st1 (some c) delta_text
            rw [h.1, h.2]
            exact ⟨hge1, hlen1⟩
        · have h := hermesCommon_preserves st1 none delta_text
          rw [h.1, h.2]
          exact ⟨hge1, hlen1⟩
      · split
        · split
          · exact ⟨hge, hlen⟩
          · rename_i c heqc
            have h := hermesCommon_preserves st (some c) delta_text
            rw [h.1, h.2]
            exact ⟨hge, hlen⟩
        · split
          · rw [hermesClosingBranch_state]
            exact ⟨hge, hlen⟩
          · exact ⟨hge, hlen⟩

/-- One Mistral step preserves
`len(streamed_args_for_tool) = current_tool_id + 1` (together with
`current_tool_id ≥ -1`), provided the partial parse does not advance the
array length beyond `current_tool_id + 2`. -/
theorem mistralStreamStep_inv (st : ParserState)
    (parse : List Char → Bool → Option (List ToolCallDict))
    (previous_text current_text delta_text : List Char)
    (previous_token_ids current_token_ids delta_token_ids : List Nat)
    (hge : -1 ≤ st.current_tool_id)
    (hlen : (st.streamed_args_for_tool.length : Int) = st.current_tool_id + 1)
    (hbound : ∀ p b arr, parse p b = some arr →
      (arr.length : Int) ≤ st.current_tool_id + 2) :
    -1 ≤ (mistralStreamStep st parse previous_text current_text delta_text
        previous_token_ids current_token_ids delta_token_ids).1.current_tool_id
    ∧ ((mistralStreamStep st parse previous_text current_text delta_text
        previous_token_ids current_token_ids delta_token_ids).1.streamed_args_for_tool.length
          : Int)
      = (mistralStreamStep st parse previous_text current_text delta_text
        previous_token_ids current_token_ids delta_token_ids).1.current_tool_id + 1 := by
  unfold mistralStreamStep
  split
  · exact ⟨hge, hlen⟩
  · split
    · exact ⟨hge, hlen⟩
    · split
      · exact ⟨hge, hlen⟩
      · rename_i portion heqPortion
        split
        · exact ⟨hge, hlen⟩
        · rename_i arr heqParse
          split
          · exact ⟨hge, hlen⟩
          · rename_i c heqGet
            split
            · rename_i hcond
              have hb := hbound _ _ _ heqParse
              rcases mistralNewToolBranch_shape st arr c with hsame | ⟨h1, h2⟩
              · rw [hsame]
                exact ⟨hge, hlen⟩
              · constructor
                · rw [h1]
                  omega
                · rw [h1, h2]
                  push_cast
                  omega
            · split
              · have h := mistralUpdateBranch_preserves st arr c delta_text
                rw [h.1, h.2]
                exact ⟨hge, hlen⟩
              · exact ⟨hge, hlen⟩

/-- **C9 (amended).**  At the initial state the relation
`len(streamed_args_for_tool) = current_tool_id + 1` holds (with
`current_tool_id = -1`), and it is preserved by every Hermes step
unconditionally, and by every Mistral step in which the partial parse
does not advance the tool-call array length by more than one (i.e. not
beyond `current_tool_id + 2`).  The C9 counterexample shows the Mistral
side condition is necessary: a single step whose parse advances the
array length by two breaks the invariant, because the new-tool branch
appends exactly one `""` however far the cursor jumps. -/
theorem claim_C9_streamed_len_preserved (st : ParserState)
    (hge : -1 ≤ st.current_tool_id)
    (hlen : (st.streamed_args_for_tool.length : Int) = st.current_tool_id + 1) :
    ((initParserState.streamed_args_for_tool.length : Int)
        = initParserState.current_tool_id + 1)
    ∧ (∀ (start_id end_id : Nat) (parse : List Char → Bool → Option ToolCallDict)
        (previous_text current_text delta_text : List Char)
        (previous_token_ids current_token_ids delta_token_ids : List Nat),
        -1 ≤ (hermesStreamStep start_id end_id st parse previous_text current_text
            delta_text previous_token_ids current_token_ids
            delta_token_ids).1.current_tool_id
        ∧ ((hermesStreamStep start_id end_id st parse previous_text current_text
            delta_text previous_token_ids current_token_ids
            delta_token_ids).1.streamed_args_for_tool.length : Int)
          = (hermesStreamStep start_id end_id st parse previous_text current_text
            delta_text previous_token_ids current_token_ids
            delta_token_ids).1.current_tool_id + 1)
    ∧ (∀ (parse : List Char → Bool → Option (List ToolCallDict))
        (previous_text current_text delta_text : List Char)
        (previous_token_ids current_token_ids delta_token_ids : List Nat),
        (∀ p b arr, parse p b = some arr →
          (arr.length : Int) ≤ st.current_tool_id + 2) →
        -1 ≤ (mistralStreamStep st parse previous_text current_text delta_text
            previous_token_ids current_token_ids delta_token_ids).1.current_tool_id
        ∧ ((mistralStreamStep st parse previous_text current_text delta_text
            previous_token_ids current_token_ids
            delta_token_ids).1.streamed_args_for_tool.length : Int)
          = (mistralStreamStep st parse previous_text current_text delta_text
            previous_token_ids current_token_ids
            delta_token_ids).1.current_tool_id + 1) := by
  refine ⟨by decide, ?_, ?_⟩
  · intro start_id end_id parse previous_text current_text delta_text
      previous_token_ids current_token_ids delta_token_ids
    exact hermesStreamStep_inv start_id end_id st parse previous_text current_text
      delta_text previous_token_ids current_token_ids delta_token_ids hge hlen
  · intro parse previous_text current_text delta_text previous_token_ids
      current_token_ids delta_token_ids hbound
    exact mistralStreamStep_inv st parse previous_text current_text delta_text
      previous_token_ids current_token_ids delta_token_ids hge hlen hbound

/-- Witness for the amended C9 at the initial state with concrete steps
for both dialects. -/
theorem claim_C9_streamed_len_preserved_witness :
    (-1 ≤ (hermesStreamStep 3 4 initParserState (fun _ _ => none)
        [] [] [] [] [] []).1.current_tool_id
      ∧ ((hermesStreamStep 3 4 initParserState (fun _ _ => none)
          [] [] [] [] [] []).1.streamed_args_for_tool.length : Int)
        = (hermesStreamStep 3 4 initParserState (fun _ _ => none)
          [] [] [] [] [] []).1.current_tool_id + 1)
    ∧ (-1 ≤ (mistralStreamStep initParserState (fun _ _ => none)
        [] [] [] [] [] []).1.current_tool_id
      ∧ ((mistralStreamStep initParserState (fun _ _ => none)
          [] [] [] [] [] []).1.streamed_args_for_tool.length : Int)
        = (mistralStreamStep initParserState (fun _ _ => none)
          [] [] [] [] [] []).1.current_tool_id + 1) :=
  ⟨(claim_C9_streamed_len_preserved initParserState (by decide) (by decide)).2.1
      3 4 (fun _ _ => none) [] [] [] [] [] [],
   (claim_C9_streamed_len_preserved initParserState (by decide) (by decide)).2.2
      (fun _ _ => none) [] [] [] [] [] []
      (by intro p b arr h; simp at h)⟩
